import Mathlib

/-
Verification of the SentinelOps pipeline core (sentinelops-gcp-datadog).

Shallow embedding of the core data model and operations:
  * action-type / priority canonicalization (src/agents/thinker.py, src/agents/doer.py),
  * per-trace milestone timestamps and end-to-end latency (src/runtime/state.py),
  * the bounded audit buffer and KPI aggregation (src/audit/buffer.py),
  * the watchdog debounce loop (src/runtime/watchdog.py),
  * the thinker cooldown gate (src/agents/thinker.py),
  * the GameDay scenario controller (src/gameday/controller.py),
  * the doer enrichment / dispatch slice (src/agents/doer.py).

Wall-clock times (Python time.time(), float seconds) are modelled as integers
at a fixed resolution; the comparisons and differences the code performs are
order/affine and are preserved by this choice.  Python str values are modelled
as Lean String restricted to the ASCII behaviour of .strip()/.lower()/.upper().
-/

namespace SentinelOps

/-!  Canonicalization helpers.

`_canonical_action_type` and `_canonical_priority` are defined twice in the
source, textually identically, in src/agents/thinker.py (lines 57-72) and
src/agents/doer.py (lines 43-58).  They are embedded once here.

Python reference:
  s = (t or "").strip().lower().replace("-", "_").replace(" ", "_")
  if s in {"stop", "stopline", "stop_line", "halt", "shutdown"}: return "stop_line"
  if s in {"alert", "warn", "notify"}: return "alert"
  return s or "alert"
-/

/-- Whitespace stripped by Python str.strip (ASCII range): space, tab,
line feed, carriage return, vertical tab, form feed. -/
def isPySpace (c : Char) : Bool :=
  c == ' ' || c == '\t' || c == '\n' || c == '\r' || c == '\x0B' || c == '\x0C'

/-- List-of-characters model of Python str.strip: drop leading and trailing
whitespace. -/
def pyStripList (l : List Char) : List Char :=
  ((l.dropWhile isPySpace).reverse.dropWhile isPySpace).reverse

/-- String model of Python str.strip. -/
def pyStrip (s : String) : String :=
  ⟨pyStripList s.data⟩

/-- Per-character effect of `.lower().replace("-", "_").replace(" ", "_")`:
both replacements are single-character substitutions, so the composition
acts characterwise. -/
def lowRepl (c : Char) : Char :=
  let d := c.toLower
  if d = '-' ∨ d = ' ' then '_' else d

/-- The normalized form `s` computed by `_canonical_action_type`:
`(t or "").strip().lower().replace("-", "_").replace(" ", "_")`. -/
def normActionType (t : String) : String :=
  ⟨(pyStripList t.data).map lowRepl⟩

/-- The line-stopping synonym set of `_canonical_action_type`. -/
def stopSynonyms : List String :=
  ["stop", "stopline", "stop_line", "halt", "shutdown"]

/-- The alert synonym set of `_canonical_action_type`. -/
def alertSynonyms : List String :=
  ["alert", "warn", "notify"]

/-- `_canonical_action_type` from src/agents/thinker.py lines 57-63 and
src/agents/doer.py lines 43-49 (the two definitions are identical).
`return s or "alert"` yields "alert" exactly when `s` is empty. -/
def canonicalActionType (t : String) : String :=
  let s := normActionType t
  if s ∈ stopSynonyms then "stop_line"
  else if s ∈ alertSynonyms then "alert"
  else if s = "" then "alert"
  else s

/-- Python str.lower, characterwise (ASCII). -/
def pyLower (s : String) : String :=
  ⟨s.data.map Char.toLower⟩

/-- Python str.upper, characterwise (ASCII). -/
def pyUpper (s : String) : String :=
  ⟨s.data.map Char.toUpper⟩

/-- `_canonical_priority` from src/agents/thinker.py lines 66-72 and
src/agents/doer.py lines 52-58. -/
def canonicalPriority (p : String) : String :=
  let s := pyUpper (pyStrip p)
  if s ∈ (["P1", "P2", "P3"] : List String) then s
  else if s ∈ (["1", "2", "3"] : List String) then "P" ++ s
  else "P2"

/-!  Character-level lemmas about Char.toLower and the normalization map. -/

theorem char_toNat_ofNat_of_lt (n : ℕ) (h : n < 55296) : (Char.ofNat n).toNat = n := by
  have hv : n.isValidChar := Or.inl h
  simp [Char.ofNat, hv, Char.ofNatAux, Char.toNat, UInt32.toNat]

theorem char_toLower_eq (c : Char) :
    c.toLower = if 65 ≤ c.toNat ∧ c.toNat ≤ 90 then Char.ofNat (c.toNat + 32) else c := rfl

theorem char_toNat_toLower (c : Char) :
    c.toLower.toNat = if 65 ≤ c.toNat ∧ c.toNat ≤ 90 then c.toNat + 32 else c.toNat := by
  rw [char_toLower_eq]
  split
  · next h => exact char_toNat_ofNat_of_lt _ (by omega)
  · rfl

theorem char_toLower_toLower (c : Char) : c.toLower.toLower = c.toLower := by
  rw [char_toLower_eq c]
  split
  · next h =>
    rw [char_toLower_eq]
    have h2 : (Char.ofNat (c.toNat + 32)).toNat = c.toNat + 32 :=
      char_toNat_ofNat_of_lt _ (by omega)
    rw [h2]
    split
    · next h3 => omega
    · rfl
  · next h =>
    rw [char_toLower_eq]
    split
    · next h3 => omega
    · rfl

theorem char_eq_iff_toNat (c d : Char) : c = d ↔ c.toNat = d.toNat := by
  constructor
  · intro h; rw [h]
  · intro h
    apply Char.ext
    exact UInt32.eq_of_toBitVec_eq (BitVec.eq_of_toNat_eq h)

theorem isPySpace_iff_toNat (c : Char) :
    isPySpace c = true ↔
      (c.toNat = 32 ∨ c.toNat = 9 ∨ c.toNat = 10 ∨ c.toNat = 13 ∨
       c.toNat = 11 ∨ c.toNat = 12) := by
  unfold isPySpace
  simp only [Bool.or_eq_true, beq_iff_eq]
  rw [char_eq_iff_toNat c ' ', char_eq_iff_toNat c '\t', char_eq_iff_toNat c '\n',
    char_eq_iff_toNat c '\r', char_eq_iff_toNat c '\x0B', char_eq_iff_toNat c '\x0C']
  simp only [show (' ' : Char).toNat = 32 from rfl, show ('\t' : Char).toNat = 9 from rfl,
    show ('\n' : Char).toNat = 10 from rfl, show ('\r' : Char).toNat = 13 from rfl,
    show ('\x0B' : Char).toNat = 11 from rfl, show ('\x0C' : Char).toNat = 12 from rfl]
  tauto

theorem lowRepl_eq (c : Char) :
    lowRepl c = if c.toLower = '-' ∨ c.toLower = ' ' then '_' else c.toLower := rfl

theorem lowRepl_lowRepl (c : Char) : lowRepl (lowRepl c) = lowRepl c := by
  rw [lowRepl_eq c]
  by_cases h : c.toLower = '-' ∨ c.toLower = ' '
  · rw [if_pos h]
    decide
  · rw [if_neg h, lowRepl_eq, char_toLower_toLower c, if_neg h]

theorem isPySpace_lowRepl (c : Char) (h : isPySpace c = false) :
    isPySpace (lowRepl c) = false := by
  rw [lowRepl_eq c]
  by_cases hc : c.toLower = '-' ∨ c.toLower = ' '
  · rw [if_pos hc]
    decide
  · rw [if_neg hc]
    have hn := char_toNat_toLower c
    by_cases hu : 65 ≤ c.toNat ∧ c.toNat ≤ 90
    · rw [if_pos hu] at hn
      rw [Bool.eq_false_iff]
      intro hsp
      have := (isPySpace_iff_toNat c.toLower).mp hsp
      omega
    · rw [if_neg hu] at hn
      rw [Bool.eq_false_iff]
      intro hsp
      have h1 := (isPySpace_iff_toNat c.toLower).mp hsp
      have h2 : isPySpace c = true := by
        rw [isPySpace_iff_toNat c]; omega
      rw [h] at h2
      exact Bool.false_ne_true h2

/-!  List-level lemmas about stripping. -/

theorem dropWhile_head_false (p : Char → Bool) :
    ∀ (l : List Char) c cs, l.dropWhile p = c :: cs → p c = false := by
  intro l
  induction l with
  | nil => intro c cs h; simp [List.dropWhile] at h
  | cons a t ih =>
    intro c cs h
    rw [List.dropWhile_cons] at h
    by_cases hp : p a
    · rw [if_pos hp] at h
      exact ih c cs h
    · rw [if_neg hp] at h
      cases h
      exact Bool.eq_false_iff.mpr hp

theorem getLast?_dropWhile (p : Char → Bool) :
    ∀ (l : List Char), l.dropWhile p ≠ [] → (l.dropWhile p).getLast? = l.getLast? := by
  intro l
  induction l with
  | nil => intro h; simp [List.dropWhile] at h
  | cons a t ih =>
    intro h
    rw [List.dropWhile_cons]
    rw [List.dropWhile_cons] at h
    by_cases hp : p a
    · rw [if_pos hp] at h ⊢
      have ht : t ≠ [] := by
        intro he; rw [he] at h; simp [List.dropWhile] at h
      rw [ih h]
      cases t with
      | nil => exact absurd rfl ht
      | cons b t2 => rw [List.getLast?_cons_cons]
    · rw [if_neg hp]

theorem head?_to_cons {α : Type} (l : List α) (c : α) (h : l.head? = some c) :
    ∃ cs, l = c :: cs := by
  cases l with
  | nil => simp at h
  | cons a t =>
    simp only [List.head?_cons, Option.some.injEq] at h
    exact ⟨t, by rw [h]⟩

theorem pyStripList_head (l : List Char) (c : Char) (cs : List Char)
    (h : pyStripList l = c :: cs) : isPySpace c = false := by
  unfold pyStripList at h
  have hrne : (l.dropWhile isPySpace).reverse.dropWhile isPySpace ≠ [] := by
    intro he; rw [he] at h; simp at h
  have h1 := getLast?_dropWhile isPySpace (l.dropWhile isPySpace).reverse hrne
  have h2 : (l.dropWhile isPySpace).reverse.getLast? = (l.dropWhile isPySpace).head? :=
    List.getLast?_reverse _
  have h3 : ((l.dropWhile isPySpace).reverse.dropWhile isPySpace).reverse.head? = some c := by
    rw [h]; rfl
  rw [List.head?_reverse] at h3
  have h5 : (l.dropWhile isPySpace).head? = some c := by rw [← h2, ← h1]; exact h3
  obtain ⟨m2, hm2⟩ := head?_to_cons _ c h5
  exact dropWhile_head_false isPySpace l c m2 hm2

theorem pyStripList_getLast (l : List Char) (c : Char)
    (h : (pyStripList l).getLast? = some c) : isPySpace c = false := by
  unfold pyStripList at h
  rw [List.getLast?_reverse] at h
  obtain ⟨cs, hcs⟩ := head?_to_cons _ c h
  exact dropWhile_head_false isPySpace (l.dropWhile isPySpace).reverse c cs hcs

theorem dropWhile_eq_self_of_head (p : Char → Bool) (l : List Char)
    (h : ∀ c, l.head? = some c → p c = false) : l.dropWhile p = l := by
  cases l with
  | nil => rfl
  | cons a t =>
    rw [List.dropWhile_cons, if_neg]
    rw [h a rfl]
    simp

theorem pyStripList_eq_self (l : List Char)
    (h1 : ∀ c, l.head? = some c → isPySpace c = false)
    (h2 : ∀ c, l.getLast? = some c → isPySpace c = false) :
    pyStripList l = l := by
  unfold pyStripList
  rw [dropWhile_eq_self_of_head isPySpace l h1]
  rw [dropWhile_eq_self_of_head isPySpace l.reverse (by
    intro c hc
    rw [List.head?_reverse] at hc
    exact h2 c hc)]
  exact List.reverse_reverse l

theorem normActionType_idem (t : String) :
    normActionType (normActionType t) = normActionType t := by
  unfold normActionType
  apply congrArg String.mk
  have hdata : (String.mk ((pyStripList t.data).map lowRepl)).data
      = (pyStripList t.data).map lowRepl := rfl
  rw [hdata]
  have hstrip : pyStripList ((pyStripList t.data).map lowRepl)
      = (pyStripList t.data).map lowRepl := by
    apply pyStripList_eq_self
    · intro c hc
      rw [List.head?_map] at hc
      cases hh : (pyStripList t.data).head? with
      | none => rw [hh] at hc; simp at hc
      | some b =>
        rw [hh] at hc
        simp only [Option.map_some', Option.some.injEq] at hc
        obtain ⟨bs, hbs⟩ := head?_to_cons _ b hh
        have := pyStripList_head t.data b bs hbs
        rw [← hc]
        exact isPySpace_lowRepl b this
    · intro c hc
      rw [List.getLast?_map] at hc
      cases hh : (pyStripList t.data).getLast? with
      | none => rw [hh] at hc; simp at hc
      | some b =>
        rw [hh] at hc
        simp only [Option.map_some', Option.some.injEq] at hc
        have := pyStripList_getLast t.data b hh
        rw [← hc]
        exact isPySpace_lowRepl b this
  rw [hstrip, List.map_map]
  apply List.map_congr_left
  intro a _
  exact lowRepl_lowRepl a

theorem canonicalActionType_eq (t : String) :
    canonicalActionType t =
      if normActionType t ∈ stopSynonyms then "stop_line"
      else if normActionType t ∈ alertSynonyms then "alert"
      else if normActionType t = "" then "alert"
      else normActionType t := rfl

theorem canonicalActionType_idem (t : String) :
    canonicalActionType (canonicalActionType t) = canonicalActionType t := by
  rw [canonicalActionType_eq t]
  by_cases h1 : normActionType t ∈ stopSynonyms
  · rw [if_pos h1]
    decide
  · by_cases h2 : normActionType t ∈ alertSynonyms
    · rw [if_neg h1, if_pos h2]
      decide
    · by_cases h3 : normActionType t = ""
      · rw [if_neg h1, if_neg h2, if_pos h3]
        decide
      · rw [if_neg h1, if_neg h2, if_neg h3]
        rw [canonicalActionType_eq, normActionType_idem t,
          if_neg h1, if_neg h2, if_neg h3]

/-- C1 counterexample: the canonicalization is not two-valued.  The unrecognized
non-empty string "foobar" is returned as itself (`return s or "alert"` only
falls back to "alert" for an empty normalized string), so the result is neither
the line-stopping value nor the alert value. -/
theorem c1_counterexample :
    canonicalActionType "foobar" = "foobar" ∧
    canonicalActionType "foobar" ≠ "stop_line" ∧
    canonicalActionType "foobar" ≠ "alert" := by
  refine ⟨?_, ?_, ?_⟩ <;> decide

/-- C1 (amended): `_canonical_action_type` (identical in the Thinker and Doer
stages) returns the line-stopping value "stop_line" for the recognized stop
synonyms and the alert value "alert" for the recognized alert synonyms, with
matching insensitive to case and to the separators '-' and ' ' versus '_'
(applied by the normalization); a string that normalizes to empty falls back to
"alert"; but an unrecognized non-empty string is returned in its normalized
form rather than falling back to "alert", so the function is not limited to
the two canonical values. -/
theorem stop_alert_synonyms_disjoint :
    ∀ s ∈ alertSynonyms, s ∉ stopSynonyms := by decide

theorem c1_canonicalization_amended (t : String) :
    (normActionType t ∈ stopSynonyms → canonicalActionType t = "stop_line") ∧
    (normActionType t ∈ alertSynonyms → canonicalActionType t = "alert") ∧
    (normActionType t = "" → canonicalActionType t = "alert") ∧
    (normActionType t ∉ stopSynonyms → normActionType t ∉ alertSynonyms →
      normActionType t ≠ "" → canonicalActionType t = normActionType t) := by
  rw [canonicalActionType_eq t]
  refine ⟨?_, ?_, ?_, ?_⟩
  · intro h; rw [if_pos h]
  · intro h
    rw [if_neg (stop_alert_synonyms_disjoint _ h), if_pos h]
  · intro h
    have hns : normActionType t ∉ stopSynonyms := by rw [h]; decide
    have hna : normActionType t ∉ alertSynonyms := by rw [h]; decide
    rw [if_neg hns, if_neg hna, if_pos h]
  · intro h1 h2 h3
    rw [if_neg h1, if_neg h2, if_neg h3]

/-- C1 witness: concrete evaluations of the amended characterization, including
case- and separator-insensitive matches. -/
theorem c1_witness :
    canonicalActionType "Stop-Line" = "stop_line" ∧
    canonicalActionType " WARN " = "alert" ∧
    canonicalActionType "" = "alert" ∧
    canonicalActionType "open door" = "open_door" := by
  refine ⟨(c1_canonicalization_amended "Stop-Line").1 (by decide),
    (c1_canonicalization_amended " WARN ").2.1 (by decide),
    (c1_canonicalization_amended "").2.2.1 (by decide),
    ((c1_canonicalization_amended "open door").2.2.2 (by decide) (by decide)
      (by decide)).trans (by decide)⟩

/-!  RuntimeState milestone timestamps (src/runtime/state.py).

`mark(trace_id, kind)` fetches (or creates) the TraceTimestamps entry for the
trace and assigns `time.time()` to the field selected by `kind`; an unknown
kind stores the entry back unchanged.  The assignment is unconditional: it
does not test whether the field is already set.
-/

/-- TraceTimestamps (src/runtime/state.py lines 20-25): one optional wall-clock
timestamp per pipeline milestone. -/
structure TraceTimestamps where
  clip_ts : Option ℤ := none
  obs_ts : Option ℤ := none
  dec_ts : Option ℤ := none
  act_ts : Option ℤ := none
deriving DecidableEq

/-- The field update performed by one RuntimeState.mark call
(src/runtime/state.py lines 51-63). -/
def markTS (t : TraceTimestamps) (kind : String) (now : ℤ) : TraceTimestamps :=
  if kind = "clip" then { t with clip_ts := some now }
  else if kind = "observation" then { t with obs_ts := some now }
  else if kind = "decision" then { t with dec_ts := some now }
  else if kind = "action" then { t with act_ts := some now }
  else t

/-- Read of the TraceTimestamps field selected by a milestone kind. -/
def getTS (t : TraceTimestamps) (kind : String) : Option ℤ :=
  if kind = "clip" then t.clip_ts
  else if kind = "observation" then t.obs_ts
  else if kind = "decision" then t.dec_ts
  else if kind = "action" then t.act_ts
  else none

/-- The four milestone kinds recognized by RuntimeState.mark. -/
def milestoneKinds : List String := ["clip", "observation", "decision", "action"]

/-- One invocation of RuntimeState.mark: trace id, milestone kind, and the
value of time.time() at the call. -/
structure MarkCall where
  trace : String
  kind : String
  now : ℤ
deriving DecidableEq

/-- The `ts` map of RuntimeState: trace id to TraceTimestamps.  A trace with no
entry is modelled by the all-none default, matching the get-or-create in mark
and the `not t` guard in the latency readers. -/
def RuntimeTS : Type := String → TraceTimestamps

/-- Fresh RuntimeState: no timestamps recorded. -/
def emptyTS : RuntimeTS := fun _ => {}

/-- Effect of one mark call on the ts map (src/runtime/state.py lines 51-63). -/
def applyMark (st : RuntimeTS) (c : MarkCall) : RuntimeTS :=
  fun tr => if tr = c.trace then markTS (st tr) c.kind c.now else st tr

/-- State of the ts map after a sequence of mark calls. -/
def runMarks (calls : List MarkCall) : RuntimeTS :=
  calls.foldl applyMark emptyTS

/-- RuntimeState.e2e_decision_latency_ms (src/runtime/state.py lines 65-70):
`int((t.dec_ts - t.clip_ts) * 1000)`, or None when either mark is missing. -/
def e2eDecisionLatencyMs (st : RuntimeTS) (trace : String) : Option ℤ :=
  match (st trace).clip_ts, (st trace).dec_ts with
  | some c, some d => some ((d - c) * 1000)
  | _, _ => none

/-- Specification-side reading of a mark-call history: the time of the most
recent mark of the given kind for the given trace, if any. -/
def lastMarkTime (calls : List MarkCall) (trace kind : String) : Option ℤ :=
  ((calls.filter fun c => c.trace == trace && c.kind == kind).getLast?).map MarkCall.now

theorem runMarks_append_one (l : List MarkCall) (c : MarkCall) :
    runMarks (l ++ [c]) = applyMark (runMarks l) c := by
  unfold runMarks
  rw [List.foldl_append]
  rfl

theorem getTS_markTS (t : TraceTimestamps) (kind ckind : String) (now : ℤ)
    (hk : kind ∈ milestoneKinds) :
    getTS (markTS t ckind now) kind = if kind = ckind then some now else getTS t kind := by
  by_cases hkc : kind = ckind
  · rw [if_pos hkc]
    subst hkc
    fin_cases hk <;> rfl
  · rw [if_neg hkc]
    unfold markTS
    split_ifs with h1 h2 h3 h4 <;>
      [subst h1; subst h2; subst h3; subst h4; skip] <;>
      fin_cases hk <;> simp_all [getTS]

theorem getTS_runMarks (calls : List MarkCall) (trace kind : String)
    (hk : kind ∈ milestoneKinds) :
    getTS (runMarks calls trace) kind = lastMarkTime calls trace kind := by
  induction calls using List.reverseRecOn with
  | nil =>
    show getTS (emptyTS trace) kind = lastMarkTime [] trace kind
    unfold emptyTS getTS lastMarkTime
    split_ifs <;> rfl
  | append_singleton l c ih =>
    rw [runMarks_append_one l c]
    unfold applyMark lastMarkTime
    rw [List.filter_append]
    by_cases htr : trace = c.trace
    · rw [if_pos htr]
      rw [getTS_markTS _ kind c.kind c.now hk]
      by_cases hkk : kind = c.kind
      · rw [if_pos hkk]
        have hpred : (fun x : MarkCall => x.trace == trace && x.kind == kind) c = true := by
          simp [htr.symm, hkk.symm]
        have hone : List.filter (fun x : MarkCall => x.trace == trace && x.kind == kind) [c]
            = [c] := by
          simp [List.filter_cons, hpred]
        rw [hone, List.getLast?_concat]
        rfl
      · rw [if_neg hkk]
        have hpred : (fun x : MarkCall => x.trace == trace && x.kind == kind) c = false := by
          simp only [Bool.and_eq_false_iff, beq_eq_false_iff_ne, ne_eq]
          right
          intro he
          exact hkk he.symm
        have hnone : List.filter (fun x : MarkCall => x.trace == trace && x.kind == kind) [c]
            = [] := by
          simp [List.filter_cons, hpred]
        rw [hnone, List.append_nil, ih]
        rfl
    · rw [if_neg htr]
      have hpred : (fun x : MarkCall => x.trace == trace && x.kind == kind) c = false := by
        simp only [Bool.and_eq_false_iff, beq_eq_false_iff_ne, ne_eq]
        left
        intro he
        exact htr he.symm
      have hnone : List.filter (fun x : MarkCall => x.trace == trace && x.kind == kind) [c]
          = [] := by
        simp [List.filter_cons, hpred]
      rw [hnone, List.append_nil, ih]
      rfl

theorem getTS_runMarks_exists (calls : List MarkCall) (trace kind : String)
    (hk : kind ∈ milestoneKinds) (v : ℤ)
    (h : getTS (runMarks calls trace) kind = some v) :
    ∃ a ∈ calls, a.trace = trace ∧ a.kind = kind ∧ a.now = v := by
  rw [getTS_runMarks calls trace kind hk] at h
  unfold lastMarkTime at h
  cases hg : (calls.filter fun c => c.trace == trace && c.kind == kind).getLast? with
  | none => rw [hg] at h; simp at h
  | some a =>
    rw [hg] at h
    simp only [Option.map_some', Option.some.injEq] at h
    have hmem := List.mem_of_mem_getLast? (l := calls.filter
      fun c => c.trace == trace && c.kind == kind) (a := a) (by rw [hg]; rfl)
    rw [List.mem_filter] at hmem
    obtain ⟨hin, hpred⟩ := hmem
    simp only [Bool.and_eq_true, beq_iff_eq] at hpred
    exact ⟨a, hin, hpred.1, hpred.2, h⟩

/-- C2 counterexample: a second mark call for the same (trace, milestone) is
not a no-op.  After mark("t", "clip") at time 1 and again at time 2, the stored
clip timestamp is 2, not the first-recorded 1: the assignment in
RuntimeState.mark is unconditional and rewrites the existing value. -/
theorem c2_counterexample :
    getTS (runMarks [⟨"t", "clip", 1⟩, ⟨"t", "clip", 2⟩] "t") "clip" = some 2 ∧
    (2 : ℤ) ≠ 1 := by
  constructor
  · rfl
  · decide

/-- C2 (amended): every RuntimeState.mark call records the current time for the
milestone, overwriting any previously stored value, so the stored timestamp is
the time of the most recent mark call for that (trace, milestone), not the
first; with a non-decreasing clock the stored value never decreases as further
calls are applied (the field is never rewritten to an earlier time). -/
theorem c2_mark_overwrites (calls : List MarkCall) (trace kind : String)
    (hk : kind ∈ milestoneKinds) :
    getTS (runMarks calls trace) kind = lastMarkTime calls trace kind ∧
    (∀ l₁ l₂, calls = l₁ ++ l₂ →
      List.Pairwise (fun a b => a.now ≤ b.now) calls →
      ∀ v₁, getTS (runMarks l₁ trace) kind = some v₁ →
        ∃ v₂, getTS (runMarks calls trace) kind = some v₂ ∧ v₁ ≤ v₂) := by
  refine ⟨getTS_runMarks calls trace kind hk, ?_⟩
  intro l₁ l₂ hsplit hmono v₁ h₁
  obtain ⟨a, ha_in, ha_tr, ha_kd, ha_now⟩ := getTS_runMarks_exists l₁ trace kind hk v₁ h₁
  rw [getTS_runMarks calls trace kind hk]
  subst hsplit
  unfold lastMarkTime
  rw [List.filter_append]
  cases hg : (l₂.filter fun c => c.trace == trace && c.kind == kind).getLast? with
  | none =>
    have hnil : (l₂.filter fun c => c.trace == trace && c.kind == kind) = [] := by
      cases hh : l₂.filter fun c => c.trace == trace && c.kind == kind with
      | nil => rfl
      | cons x xs => rw [hh] at hg; simp [List.getLast?] at hg
    rw [hnil, List.append_nil]
    refine ⟨v₁, ?_, le_refl v₁⟩
    have := getTS_runMarks l₁ trace kind hk
    rw [this] at h₁
    exact h₁
  | some b =>
    rw [List.getLast?_append, hg, Option.or_some]
    refine ⟨b.now, rfl, ?_⟩
    have hb_mem := List.mem_of_mem_getLast? (l := l₂.filter
      fun c => c.trace == trace && c.kind == kind) (a := b) (by rw [hg]; rfl)
    rw [List.mem_filter] at hb_mem
    have hb_in : b ∈ l₂ := hb_mem.1
    have hrel := (List.pairwise_append.mp hmono).2.2 a ha_in b hb_in
    rw [ha_now] at hrel
    exact hrel

/-- C2 witness: the amended theorem applied at the concrete two-call history of
the counterexample. -/
theorem c2_witness :
    getTS (runMarks [⟨"t", "clip", 1⟩, ⟨"t", "clip", 2⟩] "t") "clip" =
      lastMarkTime [⟨"t", "clip", 1⟩, ⟨"t", "clip", 2⟩] "t" "clip" ∧
    ∃ v₂, getTS (runMarks [⟨"t", "clip", 1⟩, ⟨"t", "clip", 2⟩] "t") "clip" = some v₂ ∧
      (1 : ℤ) ≤ v₂ := by
  have h := c2_mark_overwrites [⟨"t", "clip", 1⟩, ⟨"t", "clip", 2⟩] "t" "clip" (by decide)
  exact ⟨h.1, h.2 [⟨"t", "clip", 1⟩] [⟨"t", "clip", 2⟩] rfl (by decide) 1 rfl⟩

theorem markTS_clip_ts (t : TraceTimestamps) (k : String) (now : ℤ) :
    (markTS t k now).clip_ts = if k = "clip" then some now else t.clip_ts := by
  unfold markTS
  split_ifs with h1 h2 h3 h4 <;> simp_all

theorem markTS_dec_ts (t : TraceTimestamps) (k : String) (now : ℤ) :
    (markTS t k now).dec_ts = if k = "decision" then some now else t.dec_ts := by
  unfold markTS
  split_ifs with h1 h2 h3 h4 <;> simp_all

theorem getTS_clip_eq (t : TraceTimestamps) : getTS t "clip" = t.clip_ts := rfl

theorem getTS_dec_eq (t : TraceTimestamps) : getTS t "decision" = t.dec_ts := rfl

/-- In a mark history whose clock is non-decreasing and in which no clip mark
for the trace follows a decision mark for it (the pipeline order: the producer
marks "clip" when the trace is created, the thinker marks "decision" later),
the stored clip time never exceeds the stored decision time. -/
theorem runMarks_clip_le_dec (calls : List MarkCall) (trace : String)
    (hmono : List.Pairwise (fun a b => a.now ≤ b.now) calls)
    (horder : List.Pairwise (fun a b => ¬(a.trace = trace ∧ a.kind = "decision" ∧
        b.trace = trace ∧ b.kind = "clip")) calls) :
    ∀ c d, (runMarks calls trace).clip_ts = some c →
      (runMarks calls trace).dec_ts = some d → c ≤ d := by
  induction calls using List.reverseRecOn with
  | nil =>
    intro c d hc hd
    exact absurd hc (by simp [runMarks, emptyTS])
  | append_singleton l x ih =>
    have hmono' := List.pairwise_append.mp hmono
    have horder' := List.pairwise_append.mp horder
    intro c d hc hd
    rw [runMarks_append_one] at hc hd
    unfold applyMark at hc hd
    by_cases htr : trace = x.trace
    · rw [if_pos htr] at hc hd
      rw [markTS_clip_ts] at hc
      rw [markTS_dec_ts] at hd
      by_cases hkc : x.kind = "clip"
      · rw [if_pos hkc] at hc
        rw [if_neg (by rw [hkc]; decide)] at hd
        rw [← getTS_dec_eq] at hd
        obtain ⟨b, hb_in, hb_tr, hb_kd, hb_now⟩ :=
          getTS_runMarks_exists l trace "decision" (by decide) d hd
        exact absurd ⟨hb_tr, hb_kd, htr.symm, hkc⟩
          (horder'.2.2 b hb_in x (List.mem_singleton.mpr rfl))
      · rw [if_neg hkc] at hc
        by_cases hkd : x.kind = "decision"
        · rw [if_pos hkd] at hd
          rw [← getTS_clip_eq] at hc
          obtain ⟨a, ha_in, ha_tr, ha_kd, ha_now⟩ :=
            getTS_runMarks_exists l trace "clip" (by decide) c hc
          have hax := hmono'.2.2 a ha_in x (List.mem_singleton.mpr rfl)
          have hxd : x.now = d := by injection hd
          rw [← ha_now, ← hxd]
          exact hax
        · rw [if_neg hkd] at hd
          exact ih hmono'.1 horder'.1 c d hc hd
    · rw [if_neg htr] at hc hd
      exact ih hmono'.1 horder'.1 c d hc hd

/-- C9: for every trace, `e2e_decision_latency_ms` returns a value exactly when
both the clip mark and the decision mark exist (None, i.e. "unavailable", when
either is missing), and the value equals the decision-mark time minus the
clip-mark time converted to milliseconds; under the pipeline ordering (the
clock is non-decreasing across mark calls and no clip mark for the trace is
issued after a decision mark for it) the value is never negative. -/
theorem c9_e2e_latency (calls : List MarkCall) (trace : String)
    (hmono : List.Pairwise (fun a b => a.now ≤ b.now) calls)
    (horder : List.Pairwise (fun a b => ¬(a.trace = trace ∧ a.kind = "decision" ∧
        b.trace = trace ∧ b.kind = "clip")) calls) :
    (e2eDecisionLatencyMs (runMarks calls) trace = none ↔
      ((runMarks calls trace).clip_ts = none ∨ (runMarks calls trace).dec_ts = none)) ∧
    (∀ c d, (runMarks calls trace).clip_ts = some c →
      (runMarks calls trace).dec_ts = some d →
      e2eDecisionLatencyMs (runMarks calls) trace = some ((d - c) * 1000) ∧
        0 ≤ (d - c) * 1000) := by
  constructor
  · unfold e2eDecisionLatencyMs
    cases hc : (runMarks calls trace).clip_ts with
    | none => simp
    | some c =>
      cases hd : (runMarks calls trace).dec_ts with
      | none => simp
      | some d => simp
  · intro c d hc hd
    refine ⟨?_, ?_⟩
    · unfold e2eDecisionLatencyMs
      rw [hc, hd]
    · have hle := runMarks_clip_le_dec calls trace hmono horder c d hc hd
      omega

/-- C9 witness: a clip mark at time 5 then a decision mark at time 9 for the
same trace yield a latency of (9 - 5) * 1000 = 4000 ms, non-negative. -/
theorem c9_witness :
    e2eDecisionLatencyMs (runMarks [⟨"t", "clip", 5⟩, ⟨"t", "decision", 9⟩]) "t" =
      some 4000 ∧ (0 : ℤ) ≤ 4000 := by
  have h := c9_e2e_latency [⟨"t", "clip", 5⟩, ⟨"t", "decision", 9⟩] "t"
    (by decide) (by decide)
  have h2 := h.2 5 9 rfl rfl
  exact ⟨h2.1.trans (by norm_num), by norm_num⟩

/-!  AuditBuffer (src/audit/buffer.py).

`add` appends to a deque with a fixed maxlen (oldest evicted first),
`recent(limit)` returns the last `max 1 limit` records newest first, and
`kpi` recomputes aggregates over a snapshot of the buffer.  A record payload
is abstracted to exactly the fields kpi reads: the optional "action" sub-dict
(its "type" and "priority" strings) and the "status" string; a missing key
yields the empty string, as `act.get("type", "")` does.
-/

/-- The "action" sub-dict of an action audit payload, as read by kpi. -/
structure ActionField where
  type_ : String := ""
  priority : String := ""
deriving DecidableEq

/-- One audit record (audit id omitted; `ts` is the append timestamp). -/
structure AuditRecord where
  kind : String
  ts : ℤ
  action : Option ActionField := none
  status : String := ""
deriving DecidableEq

/-- Accumulator of the per-action-record loop in AuditBuffer.kpi
(src/audit/buffer.py lines 62-90). -/
structure KpiActionAcc where
  stop_line : ℕ := 0
  alert : ℕ := 0
  sent : ℕ := 0
  failed : ℕ := 0
  skipped : ℕ := 0
  p1 : ℕ := 0
  p2 : ℕ := 0
  p3 : ℕ := 0
  last_stop_ts : Option ℤ := none
deriving DecidableEq

/-- `if pr in p: p[pr] += 1` (src/audit/buffer.py lines 78-79). -/
def kpiPriorityStep (acc : KpiActionAcc) (pr : String) : KpiActionAcc :=
  if pr = "P1" then { acc with p1 := acc.p1 + 1 }
  else if pr = "P2" then { acc with p2 := acc.p2 + 1 }
  else if pr = "P3" then { acc with p3 := acc.p3 + 1 }
  else acc

/-- The sent/failed/skipped branch (src/audit/buffer.py lines 80-85). -/
def kpiStatusStep (acc : KpiActionAcc) (status : String) : KpiActionAcc :=
  if status = "sent" then { acc with sent := acc.sent + 1 }
  else if status = "failed" then { acc with failed := acc.failed + 1 }
  else if status = "skipped" then { acc with skipped := acc.skipped + 1 }
  else acc

/-- The stop_line/alert branch (src/audit/buffer.py lines 86-90). -/
def kpiTypeStep (acc : KpiActionAcc) (t : String) (ts : ℤ) : KpiActionAcc :=
  if t = "stop_line" then
    { acc with stop_line := acc.stop_line + 1, last_stop_ts := some ts }
  else if t = "alert" then { acc with alert := acc.alert + 1 }
  else acc

/-- One iteration of the action loop in kpi (src/audit/buffer.py lines 71-90):
`t = str(act.get("type", "")).lower()`, `pr = str(act.get("priority", "")).upper()`,
`status = str(payload.get("status", "")).lower()`, then the three branches. -/
def kpiActionStep (acc : KpiActionAcc) (a : AuditRecord) : KpiActionAcc :=
  kpiTypeStep
    (kpiStatusStep
      (kpiPriorityStep acc (pyUpper (a.action.getD {}).priority))
      (pyLower a.status))
    (pyLower (a.action.getD {}).type_) a.ts

/-- The result record of AuditBuffer.kpi (src/audit/buffer.py lines 92-106). -/
structure Kpi where
  stop_line : ℕ
  alert : ℕ
  decisions : ℕ
  observations : ℕ
  actions : ℕ
  action_sent : ℕ
  action_failed : ℕ
  action_skipped : ℕ
  last_stop_line_ts : Option ℤ
  p1 : ℕ
  p2 : ℕ
  p3 : ℕ
  tool_errors : ℕ
  stage_timeouts : ℕ
  security_events : ℕ
deriving DecidableEq

/-- AuditBuffer.kpi (src/audit/buffer.py lines 50-106) over a snapshot of the
buffer contents, oldest first. -/
def kpi (events : List AuditRecord) : Kpi :=
  let actions := events.filter fun x => x.kind == "action"
  let acc := actions.foldl kpiActionStep {}
  { stop_line := acc.stop_line
    alert := acc.alert
    decisions := (events.filter fun x => x.kind == "decision").length
    observations := (events.filter fun x => x.kind == "observation").length
    actions := actions.length
    action_sent := acc.sent
    action_failed := acc.failed
    action_skipped := acc.skipped
    last_stop_line_ts := acc.last_stop_ts
    p1 := acc.p1
    p2 := acc.p2
    p3 := acc.p3
    tool_errors := (events.filter fun x => x.kind == "tool_error").length
    stage_timeouts := (events.filter fun x => x.kind == "stage_timeout").length
    security_events := (events.filter fun x => x.kind == "security").length }

/-- The action statuses counted by the sent/failed/skipped breakdown. -/
def knownStatus (a : AuditRecord) : Bool :=
  pyLower a.status == "sent" || pyLower a.status == "failed" ||
    pyLower a.status == "skipped"

theorem kpiPriorityStep_sfs (acc : KpiActionAcc) (pr : String) :
    (kpiPriorityStep acc pr).sent = acc.sent ∧
    (kpiPriorityStep acc pr).failed = acc.failed ∧
    (kpiPriorityStep acc pr).skipped = acc.skipped := by
  unfold kpiPriorityStep
  split_ifs <;> exact ⟨rfl, rfl, rfl⟩

theorem kpiTypeStep_sfs (acc : KpiActionAcc) (t : String) (ts : ℤ) :
    (kpiTypeStep acc t ts).sent = acc.sent ∧
    (kpiTypeStep acc t ts).failed = acc.failed ∧
    (kpiTypeStep acc t ts).skipped = acc.skipped := by
  unfold kpiTypeStep
  split_ifs <;> exact ⟨rfl, rfl, rfl⟩

theorem kpiStatusStep_sfs (acc : KpiActionAcc) (status : String) :
    (kpiStatusStep acc status).sent + (kpiStatusStep acc status).failed +
        (kpiStatusStep acc status).skipped =
      acc.sent + acc.failed + acc.skipped +
        (if status = "sent" ∨ status = "failed" ∨ status = "skipped" then 1 else 0) := by
  unfold kpiStatusStep
  split_ifs with h1 h2 h3 <;> simp_all <;> omega

theorem kpiActionStep_sfs (acc : KpiActionAcc) (a : AuditRecord) :
    (kpiActionStep acc a).sent + (kpiActionStep acc a).failed +
        (kpiActionStep acc a).skipped =
      acc.sent + acc.failed + acc.skipped + (if knownStatus a then 1 else 0) := by
  unfold kpiActionStep
  obtain ⟨ht1, ht2, ht3⟩ := kpiTypeStep_sfs
    (kpiStatusStep (kpiPriorityStep acc (pyUpper (a.action.getD {}).priority))
      (pyLower a.status)) (pyLower (a.action.getD {}).type_) a.ts
  rw [ht1, ht2, ht3, kpiStatusStep_sfs]
  obtain ⟨hp1, hp2, hp3⟩ := kpiPriorityStep_sfs acc (pyUpper (a.action.getD {}).priority)
  rw [hp1, hp2, hp3]
  congr 1
  unfold knownStatus
  by_cases h : pyLower a.status = "sent" ∨ pyLower a.status = "failed" ∨
      pyLower a.status = "skipped"
  · rw [if_pos h, if_pos (by simp only [Bool.or_eq_true, beq_iff_eq]; tauto)]
  · rw [if_neg h, if_neg (by simp only [Bool.or_eq_true, beq_iff_eq]; tauto)]

theorem foldl_kpiActionStep_sfs (l : List AuditRecord) : ∀ acc : KpiActionAcc,
    (l.foldl kpiActionStep acc).sent + (l.foldl kpiActionStep acc).failed +
        (l.foldl kpiActionStep acc).skipped =
      acc.sent + acc.failed + acc.skipped + l.countP knownStatus := by
  induction l with
  | nil => intro acc; simp
  | cons a l ih =>
    intro acc
    rw [List.foldl_cons, ih (kpiActionStep acc a), kpiActionStep_sfs, List.countP_cons]
    by_cases h : knownStatus a <;> simp [h] <;> omega

/-- C4 counterexample: the KPI action-status breakdown does not sum to the
action count for every possible buffer contents.  A single record of kind
"action" whose payload status is the unrecognized string "bogus" is counted in
`actions` but in none of sent/failed/skipped. -/
theorem c4_counterexample :
    (kpi [⟨"action", 0, none, "bogus"⟩]).action_sent +
      (kpi [⟨"action", 0, none, "bogus"⟩]).action_failed +
      (kpi [⟨"action", 0, none, "bogus"⟩]).action_skipped ≠
    (kpi [⟨"action", 0, none, "bogus"⟩]).actions := by
  decide

/-- C4 (amended): for every buffer contents, action_sent + action_failed +
action_skipped equals the number of "action" records whose lower-cased status
is one of "sent"/"failed"/"skipped"; consequently the sum equals the total
action count exactly when every action record carries one of those statuses —
which holds for all records the Doer emits, since ActionEvent.status is
restricted to that literal set (src/shared/events.py line 72). -/
theorem c4_kpi_action_breakdown (events : List AuditRecord) :
    (kpi events).action_sent + (kpi events).action_failed +
        (kpi events).action_skipped =
      ((events.filter fun x => x.kind == "action").countP knownStatus) ∧
    ((∀ a ∈ events, a.kind = "action" → knownStatus a = true) →
      (kpi events).action_sent + (kpi events).action_failed +
          (kpi events).action_skipped =
        (kpi events).actions) := by
  have hmain : (kpi events).action_sent + (kpi events).action_failed +
      (kpi events).action_skipped =
      ((events.filter fun x => x.kind == "action").countP knownStatus) := by
    have e1 : (kpi events).action_sent =
        ((events.filter fun x => x.kind == "action").foldl kpiActionStep {}).sent := rfl
    have e2 : (kpi events).action_failed =
        ((events.filter fun x => x.kind == "action").foldl kpiActionStep {}).failed := rfl
    have e3 : (kpi events).action_skipped =
        ((events.filter fun x => x.kind == "action").foldl kpiActionStep {}).skipped := rfl
    rw [e1, e2, e3, foldl_kpiActionStep_sfs (events.filter fun x => x.kind == "action") {}]
    simp
  refine ⟨hmain, ?_⟩
  intro hall
  rw [hmain]
  show _ = (events.filter fun x => x.kind == "action").length
  rw [List.countP_eq_length]
  intro a ha
  rw [List.mem_filter] at ha
  exact hall a ha.1 (by simpa using ha.2)

/-- C4 witness: the amended theorem applied to a buffer holding one sent, one
failed, one skipped action record and one decision record: the breakdown sums
to 3 and equals the action count. -/
theorem c4_witness :
    (kpi [⟨"action", 0, none, "sent"⟩, ⟨"action", 1, none, "failed"⟩,
        ⟨"action", 2, none, "skipped"⟩, ⟨"decision", 3, none, ""⟩]).action_sent +
      (kpi [⟨"action", 0, none, "sent"⟩, ⟨"action", 1, none, "failed"⟩,
        ⟨"action", 2, none, "skipped"⟩, ⟨"decision", 3, none, ""⟩]).action_failed +
      (kpi [⟨"action", 0, none, "sent"⟩, ⟨"action", 1, none, "failed"⟩,
        ⟨"action", 2, none, "skipped"⟩, ⟨"decision", 3, none, ""⟩]).action_skipped =
    (kpi [⟨"action", 0, none, "sent"⟩, ⟨"action", 1, none, "failed"⟩,
        ⟨"action", 2, none, "skipped"⟩, ⟨"decision", 3, none, ""⟩]).actions := by
  exact (c4_kpi_action_breakdown _).2 (by decide)

/-- AuditBuffer.add restricted to the deque update (src/audit/buffer.py lines
31-42): append the new record; a deque with `maxlen = cap` evicts from the
left so that at most `cap` elements remain. -/
def addRecord (cap : ℕ) (events : List AuditRecord) (r : AuditRecord) : List AuditRecord :=
  let es := events ++ [r]
  es.drop (es.length - cap)

/-- Buffer contents after a sequence of adds into a fresh AuditBuffer. -/
def runAdds (cap : ℕ) (rs : List AuditRecord) : List AuditRecord :=
  rs.foldl (addRecord cap) []

/-- AuditBuffer.recent (src/audit/buffer.py lines 44-48):
`lim = max(1, int(limit))`, take the last `lim` records, newest first. -/
def recentRecords (events : List AuditRecord) (limit : ℕ) : List AuditRecord :=
  (events.drop (events.length - max 1 limit)).reverse

theorem runAdds_eq (cap : ℕ) (rs : List AuditRecord) :
    runAdds cap rs = rs.drop (rs.length - cap) := by
  induction rs using List.reverseRecOn with
  | nil => simp [runAdds]
  | append_singleton l r ih =>
    unfold runAdds at ih ⊢
    rw [List.foldl_append, List.foldl_cons, List.foldl_nil, ih]
    show (List.drop (l.length - cap) l ++ [r]).drop
        ((List.drop (l.length - cap) l ++ [r]).length - cap) =
      (l ++ [r]).drop ((l ++ [r]).length - cap)
    rw [List.length_append, List.length_append, List.length_drop, List.length_singleton]
    rw [List.drop_append_eq_append_drop, List.drop_append_eq_append_drop, List.drop_drop,
      List.length_drop]
    congr 2
    · omega
    · omega

/-- C5: for every configured capacity and every sequence of adds into a fresh
buffer, the buffer never holds more than `cap` records at any point (the
oldest records are evicted first), and after more than `cap` adds,
`recent(cap)` returns exactly the last `cap` inserted records, newest first. -/
theorem c5_ring_buffer (cap : ℕ) (rs : List AuditRecord) :
    (∀ n, (runAdds cap (rs.take n)).length ≤ cap) ∧
    (rs.length > cap →
      recentRecords (runAdds cap rs) cap = (rs.drop (rs.length - cap)).reverse) := by
  constructor
  · intro n
    rw [runAdds_eq, List.length_drop]
    omega
  · intro hgt
    rw [runAdds_eq]
    unfold recentRecords
    congr 1
    rw [List.length_drop]
    by_cases hc : cap = 0
    · subst hc
      rw [Nat.sub_zero, List.drop_length, List.drop_nil]
    · have hmax : max 1 cap = cap := by omega
      rw [hmax]
      rw [show rs.length - (rs.length - cap) - cap = 0 by omega, List.drop_zero]

/-- C5 witness: capacity 2 with three adds: the buffer holds the last two
records and `recent 2` returns them newest first. -/
theorem c5_witness :
    (runAdds 2 [⟨"clip", 0, none, ""⟩, ⟨"clip", 1, none, ""⟩,
        ⟨"clip", 2, none, ""⟩]).length ≤ 2 ∧
    recentRecords (runAdds 2 [⟨"clip", 0, none, ""⟩, ⟨"clip", 1, none, ""⟩,
        ⟨"clip", 2, none, ""⟩]) 2 =
      [⟨"clip", 2, none, ""⟩, ⟨"clip", 1, none, ""⟩] := by
  have h := c5_ring_buffer 2 [⟨"clip", 0, none, ""⟩, ⟨"clip", 1, none, ""⟩,
    ⟨"clip", 2, none, ""⟩]
  constructor
  · have h3 := h.1 3
    simpa using h3
  · exact (h.2 (by norm_num)).trans (by decide)

/-!  Watchdog debounce (src/runtime/watchdog.py).

`run` calls `_tick` every 250 ms.  For each in-flight stage entry whose
elapsed time is at least its SLO, `_tick` emits a breach event only when
`now - self._fired.get(key, 0.0) >= 10.0` seconds, then records `now` as the
firing time for the key.  Times are modelled in integer milliseconds; the
`0.0` default stands for "never fired" and the wall clock is far past it.
-/

/-- Debounce window of Watchdog._tick (`if now - last < 10.0: continue`),
in milliseconds. -/
def watchdogDebounceMs : ℕ := 10000

/-- Poll interval of Watchdog.run (`time.sleep(0.25)`), in milliseconds. -/
def watchdogPollMs : ℕ := 250

/-- Firing times produced by successive `_tick` calls for one (trace, stage)
key whose breach condition holds at every given poll time, starting from the
recorded firing time `last` (0 = the `.get(key, 0.0)` default).  A tick fires
iff at least the debounce window has passed since the recorded firing, and
firing updates the record to the tick time. -/
def watchdogFires (last : ℕ) : List ℕ → List ℕ
  | [] => []
  | t :: ts =>
    if last + watchdogDebounceMs ≤ t then t :: watchdogFires t ts
    else watchdogFires last ts

/-- Poll times of a stage that stays over its SLO continuously for 30 s:
120 ticks spaced 250 ms apart starting at wall-clock time t0. -/
def watchdogScenarioTicks (t0 : ℕ) : List ℕ :=
  (List.range 120).map fun k => t0 + watchdogPollMs * k

theorem watchdogFires_shift (c : ℕ) (ticks : List ℕ) :
    ∀ last, watchdogFires (last + c) (ticks.map (· + c)) =
      (watchdogFires last ticks).map (· + c) := by
  induction ticks with
  | nil => intro last; rfl
  | cons t ts ih =>
    intro last
    simp only [List.map_cons]
    unfold watchdogFires
    by_cases h : last + watchdogDebounceMs ≤ t
    · rw [if_pos h, if_pos (by unfold watchdogDebounceMs at h ⊢; omega)]
      rw [List.map_cons, ih t]
    · rw [if_neg h, if_neg (by unfold watchdogDebounceMs at h ⊢; omega)]
      exact ih last

theorem watchdogFires_ge (ticks : List ℕ) :
    ∀ last x, x ∈ watchdogFires last ticks → last + watchdogDebounceMs ≤ x := by
  induction ticks with
  | nil => intro last x h; simp [watchdogFires] at h
  | cons t ts ih =>
    intro last x h
    unfold watchdogFires at h
    by_cases hf : last + watchdogDebounceMs ≤ t
    · rw [if_pos hf] at h
      rcases List.mem_cons.mp h with h | h
      · subst h; exact hf
      · have := ih t x h
        unfold watchdogDebounceMs at *
        omega
    · rw [if_neg hf] at h
      exact ih last x h

theorem watchdogFires_chain (ticks : List ℕ) :
    ∀ last, (watchdogFires last ticks).Chain' (fun a b => a + watchdogDebounceMs ≤ b) := by
  induction ticks with
  | nil => intro last; simp [watchdogFires]
  | cons t ts ih =>
    intro last
    unfold watchdogFires
    by_cases hf : last + watchdogDebounceMs ≤ t
    · rw [if_pos hf]
      rw [List.chain'_cons']
      refine ⟨?_, ih t⟩
      intro y hy
      exact watchdogFires_ge ts t y (List.mem_of_mem_head? hy)
    · rw [if_neg hf]
      exact ih last

/-- C6: a stage continuously over its SLO for 30 s, polled every 250 ms with a
10 s debounce, produces exactly 3 breach events — at the first poll, 10 s
later, and 20 s later — not one per poll tick; and in general consecutive
firings for the same key are always at least one debounce window apart. -/
theorem c6_watchdog_debounce (t0 : ℕ) (h10 : watchdogDebounceMs ≤ t0) :
    watchdogFires 0 (watchdogScenarioTicks t0) = [t0, t0 + 10000, t0 + 20000] ∧
    (watchdogFires 0 (watchdogScenarioTicks t0)).length = 3 ∧
    (∀ last ticks, (watchdogFires last ticks).Chain'
      (fun a b => a + watchdogDebounceMs ≤ b)) := by
  have hmain : watchdogFires 0 (watchdogScenarioTicks t0) = [t0, t0 + 10000, t0 + 20000] := by
    have hticks : watchdogScenarioTicks t0 =
        t0 :: ((List.range 119).map fun k => watchdogPollMs * (k + 1)).map (· + t0) := by
      unfold watchdogScenarioTicks
      rw [show (120 : ℕ) = 119 + 1 from rfl, List.range_succ_eq_map]
      rw [List.map_cons, List.map_map, List.map_map]
      refine congrArg₂ _ (by simp) (List.map_congr_left ?_)
      intro k _
      show t0 + watchdogPollMs * (k + 1) = watchdogPollMs * (k + 1) + t0
      omega
    rw [hticks]
    unfold watchdogFires
    rw [if_pos (by unfold watchdogDebounceMs at h10 ⊢; omega)]
    have hshift := watchdogFires_shift t0 ((List.range 119).map fun k => watchdogPollMs * (k + 1)) 0
    rw [Nat.zero_add] at hshift
    rw [hshift]
    rw [show watchdogFires 0 ((List.range 119).map fun k => watchdogPollMs * (k + 1)) =
      [10000, 20000] by decide]
    simp [Nat.add_comm]
  exact ⟨hmain, by rw [hmain]; rfl, fun last ticks => watchdogFires_chain ticks last⟩

/-- C6 witness: the debounce theorem at wall-clock start 10000 ms: firings at
10000, 20000, 30000 — three events. -/
theorem c6_witness :
    watchdogFires 0 (watchdogScenarioTicks 10000) = [10000, 20000, 30000] ∧
    (watchdogFires 0 (watchdogScenarioTicks 10000)).length = 3 := by
  have h := c6_watchdog_debounce 10000 (by decide)
  exact ⟨h.1.trans (by norm_num), h.2.1⟩

/-!  Thinker dedup/cooldown gate (src/agents/thinker.py lines 117-126).

`_cooldown_ok(key)` reads `self._last_emit.get(key, 0.0)`; if less than
`self._cooldown_s` (= 4) seconds have passed it returns False WITHOUT
updating the map, otherwise it stores the current time under the key and
returns True.  The caller drops the observation when the result is False,
so only a forwarded occurrence refreshes the window.
-/

/-- The Thinker cooldown window in seconds (`self._cooldown_s = 4`). -/
def thinkerCooldownS : ℕ := 4

/-- The `_last_emit` map; a missing key reads as 0 (`.get(key, 0.0)`). -/
def CooldownMap : Type := String → ℕ

/-- Fresh `_last_emit` map. -/
def emptyCooldown : CooldownMap := fun _ => 0

/-- `_cooldown_ok` (src/agents/thinker.py lines 120-126): the pair of the
returned Bool and the map afterwards.  `now - last < cooldown` is written
`now < last + cooldown` (equivalent: the clock never precedes a recorded
emission). -/
def cooldownOk (cool : ℕ) (m : CooldownMap) (key : String) (now : ℕ) : Bool × CooldownMap :=
  if now < m key + cool then (false, m)
  else (true, fun k => if k = key then now else m k)

/-- Successive `_cooldown_ok` calls for one key at the given times: the list of
returned Bools and the final map. -/
def cooldownRun (cool : ℕ) (m : CooldownMap) (key : String) :
    List ℕ → List Bool × CooldownMap
  | [] => ([], m)
  | t :: ts =>
    let r := cooldownOk cool m key t
    let rest := cooldownRun cool r.2 key ts
    (r.1 :: rest.1, rest.2)

/-- C7: for a dedup key, of three triggering observations at times t1, t2, t3
where t2 falls within the cooldown window of t1 and t3 falls after it, only
the first and third are forwarded: the second is suppressed, and it does not
refresh the cooldown timestamp (the map still records t1 after the second
call, which is why the third call measures its window from t1). -/
theorem c7_cooldown_gate (key : String) (t1 t2 t3 : ℕ)
    (h1 : thinkerCooldownS ≤ t1)
    (h2 : t2 < t1 + thinkerCooldownS)
    (h3 : t1 + thinkerCooldownS ≤ t3) :
    (cooldownRun thinkerCooldownS emptyCooldown key [t1, t2, t3]).1 =
      [true, false, true] ∧
    (cooldownRun thinkerCooldownS emptyCooldown key [t1, t2]).2 key = t1 := by
  have e1 : cooldownOk thinkerCooldownS emptyCooldown key t1 =
      (true, fun k => if k = key then t1 else emptyCooldown k) := by
    unfold cooldownOk
    rw [if_neg (by unfold emptyCooldown thinkerCooldownS at *; omega)]
  have hm1 : (fun k => if k = key then t1 else emptyCooldown k) key = t1 := if_pos rfl
  have e2 : cooldownOk thinkerCooldownS
      (fun k => if k = key then t1 else emptyCooldown k) key t2 =
      (false, fun k => if k = key then t1 else emptyCooldown k) := by
    unfold cooldownOk
    rw [hm1, if_pos h2]
  have e3 : cooldownOk thinkerCooldownS
      (fun k => if k = key then t1 else emptyCooldown k) key t3 =
      (true, fun k => if k = key then t3 else
        (fun j => if j = key then t1 else emptyCooldown j) k) := by
    unfold cooldownOk
    rw [hm1, if_neg (by omega)]
  constructor
  · show (cooldownOk thinkerCooldownS emptyCooldown key t1).1 :: _ = _
    rw [e1]
    show (true : Bool) :: (cooldownOk thinkerCooldownS _ key t2).1 :: _ = _
    rw [e2]
    show [true, false, (cooldownOk thinkerCooldownS _ key t3).1] = _
    rw [e3]
  · show (cooldownRun thinkerCooldownS
      (cooldownOk thinkerCooldownS emptyCooldown key t1).2 key [t2]).2 key = t1
    rw [e1]
    show (cooldownOk thinkerCooldownS
      (fun k => if k = key then t1 else emptyCooldown k) key t2).2 key = t1
    rw [e2]
    exact hm1

/-- C7 witness: cooldown 4 s, triggers at 100 s, 103 s (suppressed, map keeps
100), and 104 s (forwarded again). -/
theorem c7_witness :
    (cooldownRun thinkerCooldownS emptyCooldown "cam-1:panel_open_while_operating"
      [100, 103, 104]).1 = [true, false, true] ∧
    (cooldownRun thinkerCooldownS emptyCooldown "cam-1:panel_open_while_operating"
      [100, 103]).2 "cam-1:panel_open_while_operating" = 100 := by
  exact c7_cooldown_gate "cam-1:panel_open_while_operating" 100 103 104
    (by decide) (by decide) (by decide)

/-!  GameDay scenario controller (src/gameday/controller.py). -/

/-- VALID_SCENARIOS (src/gameday/controller.py line 13). -/
def VALID_SCENARIOS : List String :=
  ["none", "dispatcher_outage", "long_running_observer", "injection"]

/-- The mutable controller state: the enabled flag (read from config, never
mutated), the stored scenario, its activation time, and the force flag. -/
structure GameDayState where
  enabled : Bool
  scenario : String
  since_ts : ℤ
  force : Bool
deriving DecidableEq

/-- GameDayController.__init__ (src/gameday/controller.py lines 23-31):
the scenario starts as the configured default if enabled, else "none", then
falls back to "none" if not a member of VALID_SCENARIOS. -/
def initGameDay (enabled : Bool) (cfgScenario : String) (force : Bool) (now : ℤ) :
    GameDayState :=
  let s0 := if enabled then cfgScenario else "none"
  { enabled := enabled
    scenario := if s0 ∈ VALID_SCENARIOS then s0 else "none"
    since_ts := now
    force := force }

/-- GameDayController.set_scenario (src/gameday/controller.py lines 37-44):
invalid names fall back to "none"; the activation timestamp is reset. -/
def setScenario (g : GameDayState) (s : String) (now : ℤ) : GameDayState :=
  let s2 := if s ∈ VALID_SCENARIOS then s else "none"
  { g with scenario := s2, since_ts := now }

/-- GameDayController.reset (src/gameday/controller.py lines 46-47). -/
def resetScenario (g : GameDayState) (now : ℤ) : GameDayState :=
  setScenario g "none" now

/-- GameDayController.active (src/gameday/controller.py lines 49-53): always
False while the controller is disabled, else a scenario-name comparison. -/
def activeScenario (g : GameDayState) (s : String) : Bool :=
  if !g.enabled then false else g.scenario == s

/-- State after a sequence of set_scenario calls (name, time). -/
def runSetScenarios (g : GameDayState) (calls : List (String × ℤ)) : GameDayState :=
  calls.foldl (fun st c => setScenario st c.1 c.2) g

theorem setScenario_valid (g : GameDayState) (s : String) (now : ℤ) :
    (setScenario g s now).scenario ∈ VALID_SCENARIOS := by
  unfold setScenario
  by_cases h : s ∈ VALID_SCENARIOS
  · simpa [h] using h
  · simp [h]
    decide

theorem runSetScenarios_valid (calls : List (String × ℤ)) :
    ∀ g : GameDayState, g.scenario ∈ VALID_SCENARIOS →
      (runSetScenarios g calls).scenario ∈ VALID_SCENARIOS := by
  induction calls with
  | nil => intro g hg; exact hg
  | cons c cs ih =>
    intro g hg
    unfold runSetScenarios at ih ⊢
    rw [List.foldl_cons]
    exact ih (setScenario g c.1 c.2) (setScenario_valid g c.1 c.2)

/-- C8: set_scenario with any name outside VALID_SCENARIOS stores "none"; the
stored scenario is a member of VALID_SCENARIOS in every reachable state —
after construction from any (possibly invalid or disabled) configured default
and after any sequence of set_scenario calls; and `active(x)` is false for
every x whenever the controller is globally disabled, regardless of the
stored scenario. -/
theorem c8_scenario_controller :
    (∀ (g : GameDayState) (s : String) (now : ℤ), s ∉ VALID_SCENARIOS →
      (setScenario g s now).scenario = "none") ∧
    (∀ (enabled : Bool) (cfgScenario : String) (force : Bool) (now : ℤ)
        (calls : List (String × ℤ)),
      (runSetScenarios (initGameDay enabled cfgScenario force now) calls).scenario ∈
        VALID_SCENARIOS) ∧
    (∀ (g : GameDayState) (s : String), g.enabled = false →
      activeScenario g s = false) := by
  refine ⟨?_, ?_, ?_⟩
  · intro g s now h
    unfold setScenario
    simp [h]
  · intro enabled cfgScenario force now calls
    apply runSetScenarios_valid
    unfold initGameDay
    by_cases h : (if enabled then cfgScenario else "none") ∈ VALID_SCENARIOS
    · simpa [h] using h
    · simp [h]
      decide
  · intro g s h
    unfold activeScenario
    rw [h]
    rfl

/-- C8 witness: an unknown name stores "none"; a controller constructed
disabled with an invalid default then switched to "dispatcher_outage" stays
inside the valid set; and `active` is false on a disabled controller even when
the stored scenario matches the query. -/
theorem c8_witness :
    (setScenario (initGameDay true "injection" false 0) "not_a_real_scenario" 5).scenario
      = "none" ∧
    (runSetScenarios (initGameDay false "bogus" false 0)
      [("dispatcher_outage", 1)]).scenario ∈ VALID_SCENARIOS ∧
    activeScenario ⟨false, "injection", 0, true⟩ "injection" = false := by
  refine ⟨?_, ?_, ?_⟩
  · exact c8_scenario_controller.1 (initGameDay true "injection" false 0)
      "not_a_real_scenario" 5 (by decide)
  · exact c8_scenario_controller.2.1 false "bogus" false 0 [("dispatcher_outage", 1)]
  · exact c8_scenario_controller.2.2 ⟨false, "injection", 0, true⟩ "injection" rfl

/-!  Thinker grounding degradation policy
(src/agents/thinker.py lines 184-315).

After the SOP lookup, citations are built only from an ok tool result with a
truthy data payload, taking at most the first 3 hits.  Then, if the result of
`_normalize_actions` begins with a stop_line action and
`grounding_ok = tool_res.ok and bool(citations)` is false, the action is
rewritten in place to an alert with priority "P1" and a fixed
grounding-unavailable message, and a "degradation" audit event plus metric
are emitted; otherwise the actions pass through unchanged.
-/

/-- One SOP lookup hit (id and text), as cited by the thinker. -/
structure SopHit where
  id : String
  text : String
deriving DecidableEq

/-- The sop_lookup ToolResult as consumed by the thinker: the ok flag and the
"hits" list of its data payload (`none` models a falsy or missing payload). -/
structure SopToolResult where
  ok : Bool
  hits : Option (List SopHit)
deriving DecidableEq

/-- One rationale citation (src/agents/thinker.py line 206). -/
structure Citation where
  source : String
  id : String
  text : String
deriving DecidableEq

/-- Citation construction (src/agents/thinker.py lines 200-206): an ok result
with a data payload contributes its first 3 hits; anything else yields no
citations. -/
def citationsOf (res : SopToolResult) : List Citation :=
  if res.ok then
    match res.hits with
    | some hits => (hits.take 3).map fun h => ⟨"sop_lookup", h.id, h.text⟩
    | none => []
  else []

/-- One normalized recommended action (the dict shape produced by
`_normalize_actions`, src/agents/thinker.py lines 75-88). -/
structure NormAction where
  type_ : String
  target : String
  priority : String
  message : String
deriving DecidableEq

/-- The message written by the degradation rewrite
(src/agents/thinker.py line 308). -/
def groundingUnavailableMsg : String :=
  "Potential high-risk event detected; policy grounding unavailable—alert supervisor to verify before stopping line."

/-- The grounding degradation policy (src/agents/thinker.py lines 304-315).
The Bool is true iff the "degradation" audit event is recorded. -/
def applyGroundingPolicy (res : SopToolResult) (actions : List NormAction) :
    List NormAction × Bool :=
  let citations := citationsOf res
  let grounding_ok := res.ok && !citations.isEmpty
  match actions with
  | [] => ([], false)
  | a :: rest =>
    if !grounding_ok && (a.type_ == "stop_line") then
      ({ a with type_ := "alert", priority := "P1", message := groundingUnavailableMsg } :: rest, true)
    else (a :: rest, false)

/-- C3: when the first recommended action is a stop_line and the SOP lookup
produced zero citations, the published action is rewritten to an alert with
priority elevated to P1 and the grounding-unavailable message, and a
degradation audit event is recorded; when the lookup succeeded with at least
one citation, the recommended actions pass through unchanged and no
degradation event is recorded. -/
theorem c3_grounding_degradation (res : SopToolResult) (a : NormAction)
    (rest : List NormAction) (ha : a.type_ = "stop_line") :
    (citationsOf res = [] →
      applyGroundingPolicy res (a :: rest) =
        ({ a with type_ := "alert", priority := "P1", message := groundingUnavailableMsg } :: rest, true)) ∧
    (res.ok = true → citationsOf res ≠ [] →
      applyGroundingPolicy res (a :: rest) = (a :: rest, false)) := by
  constructor
  · intro hc
    unfold applyGroundingPolicy
    rw [hc]
    simp [ha]
  · intro hok hc
    unfold applyGroundingPolicy
    rw [hok]
    simp [List.isEmpty_iff, hc]

/-- C3 witness: an ok lookup with zero hits forces the stop_line action down
to a P1 alert with the grounding message; an ok lookup with one hit passes the
stop_line action through unchanged. -/
theorem c3_witness :
    applyGroundingPolicy ⟨true, some []⟩
        [⟨"stop_line", "console", "P2", "Stop the line."⟩] =
      ([⟨"alert", "console", "P1", groundingUnavailableMsg⟩], true) ∧
    applyGroundingPolicy ⟨true, some [⟨"SOP-12", "Lockout-tagout required."⟩]⟩
        [⟨"stop_line", "console", "P2", "Stop the line."⟩] =
      ([⟨"stop_line", "console", "P2", "Stop the line."⟩], false) := by
  constructor
  · exact (c3_grounding_degradation ⟨true, some []⟩
      ⟨"stop_line", "console", "P2", "Stop the line."⟩ [] rfl).1 (by decide)
  · exact (c3_grounding_degradation ⟨true, some [⟨"SOP-12", "Lockout-tagout required."⟩]⟩
      ⟨"stop_line", "console", "P2", "Stop the line."⟩ [] rfl).2 rfl (by decide)

/-!  Doer enrichment and dispatch (src/agents/doer.py).

`_enrich_actions` canonicalizes the first recommended action of the decision
into `base`, optionally asks the LLM for an enriched version, and reverts the
enriched "type" to the base type whenever it differs, so enrichment can never
change the canonical action type.  `handle_decision` then dispatches
`actions[:1]`, computing `a_type = _canonical_action_type(a.get("type", ""))`
for the dispatched/recorded action.  A missing dict key is modelled as ""
where the `get` default is a constant that the subsequent `or` collapses with
"" anyway, and as Option where the default references base fields.
-/

/-- Python `x or default` on strings: falsy ("") is replaced by the default. -/
def pyOr (s d : String) : String := if s = "" then d else s

/-- One raw recommended-action dict from a DecisionEvent message (absent keys
read as ""). -/
structure RawAction where
  type_ : String := ""
  target : String := ""
  priority : String := ""
  message : String := ""
deriving DecidableEq

/-- The `base` canonicalization of one decision action
(src/agents/doer.py lines 102-108). -/
def doerBaseAction (a : RawAction) : RawAction :=
  { type_ := canonicalActionType a.type_
    target := pyOr a.target "console"
    priority := canonicalPriority a.priority
    message := pyStrip a.message }

/-- The first action dict of the LLM enrichment output
(src/agents/doer.py lines 179-187).  "type" and "priority" use base-dependent
`get` defaults, so absence is tracked with Option; "target", "message" and
"notes" go through constant defaults and `or`, which identify absence
with "". -/
structure LlmAction where
  type_ : Option String := none
  priority : Option String := none
  target : String := ""
  message : String := ""
  execution_steps : List String := []
  notes : String := ""
deriving DecidableEq

/-- Outcome of the enrichment LLM step: no model configured (stub branch,
lines 110-113), no usable "actions" list (parse failure or empty, lines
173-177), or a first action dict (lines 179-191; a non-dict first element
reads as the empty dict, i.e. all defaults). -/
inductive LlmOutcome
  | stub
  | noActions
  | action (a : LlmAction)
deriving DecidableEq

/-- The doer's final action dict (the shape dispatched and recorded). -/
structure EnrichedAction where
  type_ : String
  target : String
  priority : String
  message : String
  execution_steps : List String
  notes : String
deriving DecidableEq

/-- The fallback steps attached in the stub / no-actions branches
(src/agents/doer.py lines 112 and 176). -/
def fallbackSteps : List String := ["Inspect area", "Confirm condition", "Log outcome"]

/-- DoerAgent._enrich_actions (src/agents/doer.py lines 100-191) restricted to
its returned action list: the decision contributes `base` (its first action,
canonicalized); the stub and no-actions branches return base (or a default
alert) with fallback steps; the LLM branch canonicalizes the enriched fields
and reverts "type" to the base type when it differs (lines 188-189). -/
def enrichActions (dec : List RawAction) (llm : LlmOutcome) : List EnrichedAction :=
  let base := (dec.take 1).map doerBaseAction
  match llm with
  | .stub =>
    match base with
    | b :: _ => [⟨b.type_, b.target, b.priority, b.message, fallbackSteps, ""⟩]
    | [] => [⟨"alert", "console", "P2", "Investigate incident.", fallbackSteps, ""⟩]
  | .noActions =>
    match base with
    | b :: _ => [⟨b.type_, b.target, b.priority, b.message, fallbackSteps, ""⟩]
    | [] => [⟨"alert", "console", "P2", "Investigate incident.", fallbackSteps, ""⟩]
  | .action a =>
    match base with
    | b :: _ =>
      let enriched : EnrichedAction :=
        { type_ := canonicalActionType (a.type_.getD b.type_)
          target := pyOr a.target "console"
          priority := canonicalPriority (a.priority.getD b.priority)
          message := pyStrip (pyOr a.message b.message)
          execution_steps := a.execution_steps
          notes := pyStrip a.notes }
      [if enriched.type_ = b.type_ then enriched else { enriched with type_ := b.type_ }]
    | [] =>
      [{ type_ := canonicalActionType (a.type_.getD "alert")
         target := pyOr a.target "console"
         priority := canonicalPriority (a.priority.getD "P2")
         message := pyStrip (pyOr a.message "Action recommended.")
         execution_steps := a.execution_steps
         notes := pyStrip a.notes }]

/-- The canonical type computed for the dispatched and recorded action in
DoerAgent.handle_decision (src/agents/doer.py lines 228-229):
`a_type = _canonical_action_type(str(a.get("type", "")))` for the single
enriched action. -/
def dispatchedActionType (dec : List RawAction) (llm : LlmOutcome) : Option String :=
  match enrichActions dec llm with
  | a :: _ => some (canonicalActionType a.type_)
  | [] => none

/-- C10: for every decision carrying a recommended action, the canonical type
of the action the Doer dispatches and records equals the canonical type of the
decision's first recommended action, whatever the LLM enrichment step does: a
differing enriched type is reverted to the base type, and the stub and
no-actions branches reuse the base action, so enrichment can never turn an
alert into a stop_line or vice versa. -/
theorem c10_enrichment_preserves_type (a0 : RawAction) (rest : List RawAction)
    (llm : LlmOutcome) :
    dispatchedActionType (a0 :: rest) llm = some (canonicalActionType a0.type_) := by
  have hb : canonicalActionType (canonicalActionType a0.type_) =
      canonicalActionType a0.type_ := canonicalActionType_idem a0.type_
  cases llm with
  | stub => exact congrArg some hb
  | noActions => exact congrArg some hb
  | action a =>
    simp only [dispatchedActionType, enrichActions, List.take_succ_cons, List.take_zero,
      List.map_cons, List.map_nil, doerBaseAction]
    split_ifs with h
    · simp only [Option.some.injEq]
      rw [canonicalActionType_idem, h]
    · simp only [Option.some.injEq]
      rw [hb]

end SentinelOps
